import Mathlib

/- Shallow embedding of the flappy-dragon game (src/main.rs).

   Modelling conventions:
   * Rust f32 values are modeled as exact rationals (ℚ); i32 values as ℤ.
   * f32::round rounds half away from zero; rustRound mirrors that on ℚ.
   * Rust i32 division truncates toward zero; Int.tdiv mirrors that on ℤ.
   * The RandomNumberGenerator call in Obstacle::new (range(10, 40)) is
     modeled by passing the drawn gap value as an explicit parameter.
   * The BTerm drawing surface is modeled by a trace of render operations
     emitted in program order; the per-frame context carries the elapsed
     milliseconds and the optional key event exactly as BTerm supplies them. -/

namespace FlappyDragon

def ACCEL_GRAVITY : ℚ := 9.8

def VELOCITY_FLAP : ℚ := -15.0

def SCREEN_WIDTH : ℤ := 80

def SCREEN_HEIGHT : ℤ := 50

def PLAYER_OFFSET : ℤ := 5

/-- Rounding used by Rust's `f32::round`: round half away from zero. -/
def rustRound (q : ℚ) : ℤ := if 0 ≤ q then ⌊q + 1/2⌋ else -⌊1/2 - q⌋

inductive Color where
  | yellow
  | black
  | red
  | navy
  deriving DecidableEq

/-- One drawing-surface operation of the BTerm collaborator. -/
inductive RenderOp where
  | cls
  | clsBg (bg : Color)
  | set (x y : ℤ) (fg bg : Color) (glyph : Char)
  | print (x y : ℤ) (text : String)
  | printCentered (y : ℤ) (text : String)
  deriving DecidableEq

structure Player where
  x : ℚ
  y : ℚ
  dx : ℚ
  dy : ℚ
  deriving DecidableEq

/-- Player::new. -/
def Player.new (x y : ℚ) : Player :=
  { x := x, y := y, dx := 15.0, dy := 0.0 }

/-- Player::screen_y. -/
def Player.screen_y (p : Player) : ℤ := rustRound p.y

/-- Player::world_x. -/
def Player.world_x (p : Player) : ℤ := rustRound p.x

/-- Player::render: one glyph at the fixed horizontal offset. -/
def Player.renderOps (p : Player) : List RenderOp :=
  [RenderOp.set PLAYER_OFFSET p.screen_y Color.yellow Color.black '@']

/-- Player::update: gravity, Euler integration, floor clamp at y = 0. -/
def Player.update (p : Player) (delta_s : ℚ) : Player :=
  let dy := p.dy + ACCEL_GRAVITY * delta_s
  let y := p.y + dy * delta_s
  let x := p.x + p.dx * delta_s
  { x := x, y := if y < 0 then 0 else y, dx := p.dx, dy := dy }

/-- Player::flap. -/
def Player.flap (p : Player) : Player :=
  { p with dy := VELOCITY_FLAP }

structure Obstacle where
  x : ℤ
  gap_y : ℤ
  size : ℤ
  deriving DecidableEq

/-- Obstacle::new.  In the source, gap_y is drawn by the RNG from
    range(10, 40); the drawn value is passed here as the parameter gap_y. -/
def Obstacle.new (x gap_y score : ℤ) : Obstacle :=
  { x := x, gap_y := gap_y, size := max 2 (20 - score) }

/-- The half_size local of Obstacle::render and Obstacle::hit
    (Rust i32 division truncates toward zero). -/
def Obstacle.halfSize (o : Obstacle) : ℤ := Int.tdiv o.size 2

/-- The list lo, lo+1, ..., hi-1, as iterated by a Rust range lo..hi. -/
def intRange (lo hi : ℤ) : List ℤ :=
  (List.range (hi - lo).toNat).map (fun i : ℕ => lo + (i : ℤ))

/-- Obstacle::render: wall glyphs above and below the gap, in loop order. -/
def Obstacle.renderOps (o : Obstacle) (player_x : ℤ) : List RenderOp :=
  let screen_x := o.x - player_x + PLAYER_OFFSET
  (intRange 0 (o.gap_y - o.halfSize)).map
      (fun y => RenderOp.set screen_x y Color.red Color.black '|')
    ++ (intRange (o.gap_y + o.halfSize) SCREEN_HEIGHT).map
      (fun y => RenderOp.set screen_x y Color.red Color.black '|')

/-- Obstacle::hit. -/
def Obstacle.hit (o : Obstacle) (p : Player) : Bool :=
  let half_size := o.halfSize
  let does_x_match := p.world_x == o.x
  let player_above_gap := decide (p.screen_y < o.gap_y - half_size)
  let player_below_gap := decide (p.screen_y > o.gap_y + half_size)
  does_x_match && (player_above_gap || player_below_gap)

/-- Whether Obstacle::render draws a wall glyph on screen row y
    (row membership in either of its two loops). -/
def Obstacle.drawsRow (o : Obstacle) (y : ℤ) : Bool :=
  decide ((0 ≤ y ∧ y < o.gap_y - o.halfSize) ∨
    (o.gap_y + o.halfSize ≤ y ∧ y < SCREEN_HEIGHT))

/-- Number of visible screen rows on which Obstacle::render draws nothing. -/
def Obstacle.undrawnCount (o : Obstacle) : ℕ :=
  ((Finset.Ico (0 : ℤ) SCREEN_HEIGHT).filter (fun y => o.drawsRow y = false)).card

inductive GameMode where
  | Menu
  | Playing
  | End
  deriving DecidableEq

inductive Key where
  | Space
  | P
  | Q
  | Other
  deriving DecidableEq

/-- Per-frame context supplied by the BTerm host: elapsed milliseconds,
    the optional key event of the frame, and the value the RNG yields for
    the gap of an obstacle created during this frame. -/
structure Ctx where
  frame_time_ms : ℚ
  key : Option Key
  gapRand : ℤ
  deriving DecidableEq

structure State where
  player : Player
  obstacle : Obstacle
  mode : GameMode
  score : ℤ
  frame_time : ℚ
  deriving DecidableEq

/-- Result of one tick: the new state, the drawing trace of the frame,
    and whether the quitting flag was set. -/
structure TickResult where
  state : State
  ops : List RenderOp
  quitting : Bool
  deriving DecidableEq

/-- State::new: player at (PLAYER_OFFSET, SCREEN_HEIGHT / 2) = (5, 25). -/
def State.new (gapRand : ℤ) : State :=
  { player := Player.new 5 25
    obstacle := Obstacle.new SCREEN_WIDTH gapRand 0
    mode := GameMode.Menu
    score := 0
    frame_time := 0 }

/-- The player after the physics update and the optional flap of one
    State::play frame: update runs first, then a pending Space flaps. -/
def State.stepPlayer (s : State) (c : Ctx) : Player :=
  let delta_s := c.frame_time_ms / 1000
  let p := s.player.update delta_s
  if c.key = some Key.Space then p.flap else p

/-- The HUD text printed by State::play. -/
def hudOps (score : ℤ) : List RenderOp :=
  [RenderOp.print 0 0 "Press SPACE to flap.",
   RenderOp.print 0 1 ("Score " ++ toString score)]

/-- The score after the obstacle-pass check of State::play. -/
def State.scoreAfter (s : State) (c : Ctx) : ℤ :=
  if (s.stepPlayer c).world_x > s.obstacle.x + PLAYER_OFFSET then s.score + 1
  else s.score

/-- The live obstacle after the obstacle-pass check of State::play: on a
    pass it is replaced by a new obstacle placed one screen width ahead,
    built from the already-incremented score. -/
def State.obstacleAfter (s : State) (c : Ctx) : Obstacle :=
  if (s.stepPlayer c).world_x > s.obstacle.x + PLAYER_OFFSET then
    Obstacle.new ((s.stepPlayer c).world_x + SCREEN_WIDTH - PLAYER_OFFSET)
      c.gapRand (s.score + 1)
  else s.obstacle

/-- State::play: one Playing-mode frame, in source order: clear to navy,
    physics update with the elapsed seconds, optional flap, player render,
    obstacle render with the current player world x, HUD, pass check and
    obstacle replacement, then the end-condition check. -/
def State.play (s : State) (c : Ctx) : TickResult :=
  let p := s.stepPlayer c
  { state :=
      { player := p
        obstacle := s.obstacleAfter c
        mode :=
          if p.screen_y > SCREEN_HEIGHT ∨ (s.obstacleAfter c).hit p then
            GameMode.End
          else s.mode
        score := s.scoreAfter c
        frame_time := s.frame_time }
    ops := RenderOp.clsBg Color.navy ::
      (p.renderOps ++ s.obstacle.renderOps p.world_x ++ hudOps s.score)
    quitting := false }

/-- State::restart. -/
def State.restart (s : State) (gapRand : ℤ) : State :=
  { player := Player.new 5 25
    obstacle := Obstacle.new SCREEN_WIDTH gapRand 0
    score := 0
    frame_time := 0
    mode := GameMode.Playing }

/-- State::main_menu. -/
def State.main_menu (s : State) (c : Ctx) : TickResult :=
  let ops := [RenderOp.cls,
    RenderOp.printCentered 5 "Welcome to Flappy Dragon",
    RenderOp.printCentered 8 "(P) Play game",
    RenderOp.printCentered 9 "(Q) Quit game"]
  match c.key with
  | some Key.P => { state := s.restart c.gapRand, ops := ops, quitting := false }
  | some Key.Q => { state := s, ops := ops, quitting := true }
  | _ => { state := s, ops := ops, quitting := false }

/-- State::dead. -/
def State.dead (s : State) (c : Ctx) : TickResult :=
  let ops := [RenderOp.cls,
    RenderOp.printCentered 5 "You are dead!",
    RenderOp.printCentered 6 ("You earned " ++ toString s.score ++ " points"),
    RenderOp.printCentered 8 "(P) Play again",
    RenderOp.printCentered 9 "(Q) Quit game"]
  match c.key with
  | some Key.P => { state := s.restart c.gapRand, ops := ops, quitting := false }
  | some Key.Q => { state := s, ops := ops, quitting := true }
  | _ => { state := s, ops := ops, quitting := false }

/-- GameState::tick: dispatch on the current mode. -/
def State.tick (s : State) (c : Ctx) : TickResult :=
  match s.mode with
  | GameMode.Menu => s.main_menu c
  | GameMode.Playing => s.play c
  | GameMode.End => s.dead c


/-- Concrete sample: a Playing state whose player has already passed the
    obstacle (used to instantiate the pass-check theorem). -/
def passState : State :=
  { player := { x := 90, y := 25, dx := 15, dy := 0 }
    obstacle := { x := 80, gap_y := 20, size := 6 }
    mode := GameMode.Playing
    score := 0
    frame_time := 0 }

/-- Concrete sample frame context with zero elapsed time and no key. -/
def passCtx : Ctx := { frame_time_ms := 0, key := none, gapRand := 30 }

/-- Concrete sample: a Playing state whose player world x changes during
    the frame (pre-update 10, post-update 25 with a one-second frame). -/
def prePostState : State :=
  { player := { x := 10, y := 20, dx := 15, dy := 0.2 }
    obstacle := { x := 80, gap_y := 20, size := 6 }
    mode := GameMode.Playing
    score := 0
    frame_time := 0 }

/-- Concrete sample frame context with a one-second elapsed frame. -/
def prePostCtx : Ctx := { frame_time_ms := 1000, key := none, gapRand := 20 }

/-- Concrete sample: a Playing state whose player is far below the screen. -/
def fallState : State :=
  { player := { x := 5, y := 100, dx := 15, dy := 0 }
    obstacle := { x := 80, gap_y := 20, size := 6 }
    mode := GameMode.Playing
    score := 0
    frame_time := 0 }

/-- Concrete sample frame context for the fall scenario. -/
def fallCtx : Ctx := { frame_time_ms := 0, key := none, gapRand := 25 }

/-- Helper: membership in a Rust-style integer range. -/

lemma mem_intRange {lo hi a : ℤ} : a ∈ intRange lo hi ↔ lo ≤ a ∧ a < hi := by
  simp only [intRange, List.mem_map, List.mem_range]
  constructor
  · rintro ⟨i, hi', rfl⟩
    omega
  · intro h
    exact ⟨(a - lo).toNat, by omega, by omega⟩

/-- Helper: rustRound is the identity on integers. -/
lemma rustRound_intCast (n : ℤ) : rustRound (n : ℚ) = n := by
  unfold rustRound
  by_cases h : (0 : ℚ) ≤ (n : ℚ)
  · rw [if_pos h, Int.floor_int_add]
    norm_num
  · rw [if_neg h, show (1/2 : ℚ) - (n : ℚ) = (1/2 : ℚ) + ((-n : ℤ) : ℚ) by push_cast; ring,
      Int.floor_add_int]
    norm_num

/-- C1: Obstacle::hit returns true iff the player's rounded world x equals
    the obstacle's x and the rounded screen y lies strictly outside the
    band [gap_y - size/2, gap_y + size/2] (truncating integer division);
    for any player whose rounded world x differs from the obstacle's x it
    returns false. -/
theorem hit_characterization (o : Obstacle) (p : Player) :
    (o.hit p = true ↔
      p.world_x = o.x ∧
        (p.screen_y < o.gap_y - Int.tdiv o.size 2 ∨
          p.screen_y > o.gap_y + Int.tdiv o.size 2)) ∧
    (p.world_x ≠ o.x → o.hit p = false) := by
  constructor
  · simp [Obstacle.hit, Obstacle.halfSize]
  · intro h
    simp [Obstacle.hit, Obstacle.halfSize, h]

theorem hit_characterization_witness :
    Player.world_x ⟨10, 10, 15, 0⟩ ≠ (⟨11, 20, 6⟩ : Obstacle).x ∧
      Obstacle.hit ⟨11, 20, 6⟩ ⟨10, 10, 15, 0⟩ = false := by
  have hx : Player.world_x ⟨10, 10, 15, 0⟩ = 10 := by
    norm_num [Player.world_x, rustRound]
  exact ⟨by rw [hx]; decide,
    (hit_characterization ⟨11, 20, 6⟩ ⟨10, 10, 15, 0⟩).2 (by rw [hx]; decide)⟩

/-- C5: for every nonnegative frame delta and every starting position and
    velocity, Player::update leaves the vertical position clamped at or
    above 0. -/
theorem update_y_nonneg (p : Player) (delta_s : ℚ) (hd : 0 ≤ delta_s) :
    0 ≤ (p.update delta_s).y := by
  simp only [Player.update]
  split
  · exact le_refl 0
  · next h => exact not_lt.mp h

theorem update_y_nonneg_witness :
    (0 : ℚ) ≤ 1 ∧ 0 ≤ ((Player.new 5 25).update 1).y :=
  ⟨by norm_num, update_y_nonneg (Player.new 5 25) 1 (by norm_num)⟩

/-- C6: Player::flap overwrites dy with the flap constant -15 regardless of
    the previous dy, and changes no other field. -/
theorem flap_overrides_dy (p : Player) :
    p.flap.dy = -15 ∧ p.flap.x = p.x ∧ p.flap.y = p.y ∧ p.flap.dx = p.dx := by
  refine ⟨?_, rfl, rfl, rfl⟩
  norm_num [Player.flap, VELOCITY_FLAP]

/-- C7: an obstacle built for score s has size max 2 (20 - s); the size is
    monotonically non-increasing in the score and equals 2 from score 18 on. -/
theorem obstacle_size_formula (x gap_y s t : ℤ) :
    (Obstacle.new x gap_y s).size = max 2 (20 - s) ∧
    (s ≤ t → (Obstacle.new x gap_y t).size ≤ (Obstacle.new x gap_y s).size) ∧
    (18 ≤ s → (Obstacle.new x gap_y s).size = 2) := by
  refine ⟨rfl, ?_, ?_⟩ <;> simp [Obstacle.new] <;> omega

theorem obstacle_size_formula_witness :
    ((18 : ℤ) ≤ 25 ∧ (Obstacle.new 80 30 25).size ≤ (Obstacle.new 80 30 18).size) ∧
      ((18 : ℤ) ≤ 25 ∧ (Obstacle.new 80 30 25).size = 2) :=
  ⟨⟨by decide, (obstacle_size_formula 80 30 18 25).2.1 (by decide)⟩,
    ⟨by decide, (obstacle_size_formula 80 30 25 25).2.2 (by decide)⟩⟩

/-- C9: State::restart, from any prior state whatever its mode, resets the
    score to 0, the mode to Playing, and rebuilds the player and obstacle
    in their fixed start configurations. -/
theorem restart_resets (s : State) (gapRand : ℤ) :
    s.restart gapRand =
      { player := { x := 5, y := 25, dx := 15, dy := 0 }
        obstacle := { x := 80, gap_y := gapRand, size := 20 }
        mode := GameMode.Playing
        score := 0
        frame_time := 0 } := by
  norm_num [State.restart, Player.new, Obstacle.new, SCREEN_WIDTH]

/-- C2: whenever the pass condition holds for the updated player, State::play
    increments the score by exactly 1 and replaces the obstacle by exactly one
    new obstacle at player world x + SCREEN_WIDTH - PLAYER_OFFSET whose size is
    built from the incremented score; the pass condition is false for the new
    obstacle and stays false until the player world x exceeds the old world x
    by more than a screen width. -/
theorem play_passing (s : State) (c : Ctx)
    (hpass : (s.stepPlayer c).world_x > s.obstacle.x + PLAYER_OFFSET) :
    (s.play c).state.score = s.score + 1 ∧
    (s.play c).state.obstacle =
      Obstacle.new ((s.stepPlayer c).world_x + SCREEN_WIDTH - PLAYER_OFFSET)
        c.gapRand (s.score + 1) ∧
    (s.play c).state.obstacle.x =
      (s.stepPlayer c).world_x + SCREEN_WIDTH - PLAYER_OFFSET ∧
    (s.play c).state.obstacle.size = max 2 (20 - (s.score + 1)) ∧
    ¬ ((s.stepPlayer c).world_x > (s.play c).state.obstacle.x + PLAYER_OFFSET) ∧
    (∀ wx : ℤ, wx > (s.play c).state.obstacle.x + PLAYER_OFFSET ↔
      wx > (s.stepPlayer c).world_x + SCREEN_WIDTH) := by
  have hobs : (s.play c).state.obstacle =
      Obstacle.new ((s.stepPlayer c).world_x + SCREEN_WIDTH - PLAYER_OFFSET)
        c.gapRand (s.score + 1) := by
    simp [State.play, State.obstacleAfter, hpass]
  have hsc : (s.play c).state.score = s.score + 1 := by
    simp [State.play, State.scoreAfter, hpass]
  refine ⟨hsc, hobs, ?_, ?_, ?_, ?_⟩
  · simp [hobs, Obstacle.new]
  · simp [hobs, Obstacle.new]
  · simp [hobs, Obstacle.new, SCREEN_WIDTH, PLAYER_OFFSET]
  · intro wx
    simp [hobs, Obstacle.new, SCREEN_WIDTH, PLAYER_OFFSET]

theorem play_passing_witness :
    ((passState.stepPlayer passCtx).world_x > passState.obstacle.x + PLAYER_OFFSET) ∧
      (passState.play passCtx).state.score = passState.score + 1 ∧
      (passState.play passCtx).state.obstacle.x =
        (passState.stepPlayer passCtx).world_x + SCREEN_WIDTH - PLAYER_OFFSET := by
  have hstep : passState.stepPlayer passCtx = ⟨90, 25, 15, 0⟩ := by
    simp only [State.stepPlayer, Player.update, passState, passCtx]
    rw [if_neg (by decide : ¬((none : Option Key) = some Key.Space))]
    norm_num [Player.mk.injEq, ACCEL_GRAVITY]
  have hwx : (passState.stepPlayer passCtx).world_x = 90 := by
    rw [hstep]
    norm_num [Player.world_x, rustRound]
  have hp : (passState.stepPlayer passCtx).world_x > passState.obstacle.x + PLAYER_OFFSET := by
    rw [hwx]
    decide
  exact ⟨hp, (play_passing passState passCtx hp).1,
    (play_passing passState passCtx hp).2.2.1⟩

/-- C3 (amended): in a Playing frame the trace is, in order, the navy
    background clear, the player glyph, the obstacle walls, then the HUD, and
    the obstacle render receives the post-update player world x — the world x
    after this frame's physics integration (a flap does not change x); the
    frame's resulting player is the updated, optionally flapped one. -/
theorem play_render_order (s : State) (c : Ctx) :
    (s.play c).ops =
      RenderOp.clsBg Color.navy ::
        ((s.stepPlayer c).renderOps ++
          s.obstacle.renderOps ((s.player.update (c.frame_time_ms / 1000)).world_x) ++
          hudOps s.score) ∧
    (s.play c).state.player = s.stepPlayer c := by
  have hx : (s.stepPlayer c).world_x =
      (s.player.update (c.frame_time_ms / 1000)).world_x := by
    simp only [State.stepPlayer]
    by_cases hk : c.key = some Key.Space <;> simp [hk, Player.flap, Player.world_x]
  exact ⟨by rw [← hx]; rfl, rfl⟩

theorem play_render_preupdate_cex :
    ¬ ((prePostState.play prePostCtx).ops =
      RenderOp.clsBg Color.navy ::
        ((prePostState.stepPlayer prePostCtx).renderOps ++
          prePostState.obstacle.renderOps prePostState.player.world_x ++
          hudOps prePostState.score)) := by
  have hstep : prePostState.stepPlayer prePostCtx = ⟨25, 30, 15, 10⟩ := by
    simp only [State.stepPlayer, Player.update, prePostState, prePostCtx]
    rw [if_neg (by decide : ¬((none : Option Key) = some Key.Space))]
    norm_num [Player.mk.injEq, ACCEL_GRAVITY]
  have hpost : Player.world_x ⟨25, 30, 15, 10⟩ = 25 := by
    norm_num [Player.world_x, rustRound]
  have hpre : prePostState.player.world_x = 10 := by
    norm_num [prePostState, Player.world_x, rustRound]
  intro h
  rw [show (prePostState.play prePostCtx).ops =
      RenderOp.clsBg Color.navy ::
        ((prePostState.stepPlayer prePostCtx).renderOps ++
          prePostState.obstacle.renderOps (prePostState.stepPlayer prePostCtx).world_x ++
          hudOps prePostState.score) from rfl, hstep, hpost, hpre] at h
  simp only [List.cons.injEq, true_and] at h
  have h3 := List.append_cancel_left (List.append_cancel_right h)
  exact absurd h3 (by decide)

/-- C4: from mode Playing, one tick moves the mode to End exactly when the
    updated player's screen y exceeds SCREEN_HEIGHT or the end-of-tick
    obstacle reports a hit; the only possible modes after the tick are End
    and Playing (no pause, no direct return to Menu). -/
theorem playing_transition (s : State) (c : Ctx) (hmode : s.mode = GameMode.Playing) :
    ((s.tick c).state.mode = GameMode.End ↔
      ((s.stepPlayer c).screen_y > SCREEN_HEIGHT ∨
        (s.tick c).state.obstacle.hit (s.stepPlayer c) = true)) ∧
    ((s.tick c).state.mode = GameMode.End ∨ (s.tick c).state.mode = GameMode.Playing) := by
  have ht : s.tick c = s.play c := by
    unfold State.tick
    rw [hmode]
  rw [ht]
  have hob : (s.play c).state.obstacle = s.obstacleAfter c := rfl
  rw [hob]
  by_cases hcond : ((s.stepPlayer c).screen_y > SCREEN_HEIGHT ∨
      (s.obstacleAfter c).hit (s.stepPlayer c) = true)
  · exact ⟨by simp [State.play, hcond], by simp [State.play, hcond]⟩
  · exact ⟨by simp [State.play, hcond, hmode], by simp [State.play, hcond, hmode]⟩

theorem playing_transition_witness :
    fallState.mode = GameMode.Playing ∧
      (fallState.tick fallCtx).state.mode = GameMode.End := by
  have hstep : fallState.stepPlayer fallCtx = ⟨5, 100, 15, 0⟩ := by
    simp only [State.stepPlayer, Player.update, fallState, fallCtx]
    rw [if_neg (by decide : ¬((none : Option Key) = some Key.Space))]
    norm_num [Player.mk.injEq, ACCEL_GRAVITY]
  have hsy : Player.screen_y ⟨5, 100, 15, 0⟩ = 100 := by
    norm_num [Player.screen_y, rustRound]
  refine ⟨rfl, ?_⟩
  exact (playing_transition fallState fallCtx rfl).1.mpr
    (Or.inl (by rw [hstep, hsy]; decide))

/-- Helper: truncating division agrees with Euclidean division on
    nonnegative sizes. -/
lemma halfSize_eq_ediv (o : Obstacle) (h : 0 ≤ o.size) : o.halfSize = o.size / 2 :=
  Int.tdiv_eq_ediv h (by norm_num)

/-- Helper: for an obstacle whose two wall runs stay on screen, the undrawn
    rows are exactly the interval [gap_y - halfSize, gap_y + halfSize). -/
lemma undrawn_filter_eq (o : Obstacle) (h1 : 0 ≤ o.gap_y - o.halfSize)
    (h2 : o.gap_y + o.halfSize ≤ SCREEN_HEIGHT) :
    (Finset.Ico (0 : ℤ) SCREEN_HEIGHT).filter (fun y => o.drawsRow y = false) =
      Finset.Ico (o.gap_y - o.halfSize) (o.gap_y + o.halfSize) := by
  ext z
  simp only [Finset.mem_filter, Finset.mem_Ico, Obstacle.drawsRow,
    decide_eq_false_iff_not, SCREEN_HEIGHT] at h1 h2 ⊢
  omega

/-- Helper: the number of undrawn visible rows of an on-screen obstacle. -/
lemma undrawnCount_eq (o : Obstacle) (h1 : 0 ≤ o.gap_y - o.halfSize)
    (h2 : o.gap_y + o.halfSize ≤ SCREEN_HEIGHT) :
    o.undrawnCount = (2 * o.halfSize).toNat := by
  rw [Obstacle.undrawnCount, undrawn_filter_eq o h1 h2, Int.card_Ico]
  omega

/-- C8 (amended): Obstacle::render draws wall glyphs exactly on the rows
    [0, gap_y - size/2) and [gap_y + size/2, SCREEN_HEIGHT); for an obstacle
    whose runs stay on screen the undrawn gap is exactly the interval
    [gap_y - size/2, gap_y + size/2), whose height is 2*(size/2) rows — equal
    to size when size is even, and one less than size when size is odd. -/
theorem render_wall_rows (o : Obstacle) (px y : ℤ) :
    ((RenderOp.set (o.x - px + PLAYER_OFFSET) y Color.red Color.black '|') ∈
        o.renderOps px ↔
      (0 ≤ y ∧ y < o.gap_y - o.halfSize) ∨
        (o.gap_y + o.halfSize ≤ y ∧ y < SCREEN_HEIGHT)) ∧
    (0 ≤ o.size → 0 ≤ o.gap_y - o.halfSize → o.gap_y + o.halfSize ≤ SCREEN_HEIGHT →
      ((o.drawsRow y = false ∧ 0 ≤ y ∧ y < SCREEN_HEIGHT) ↔
        (o.gap_y - o.halfSize ≤ y ∧ y < o.gap_y + o.halfSize)) ∧
      (o.undrawnCount : ℤ) = 2 * Int.tdiv o.size 2 ∧
      (Even o.size → (o.undrawnCount : ℤ) = o.size)) := by
  constructor
  · simp [Obstacle.renderOps, mem_intRange]
  · intro h0 h1 h2
    have ht : Int.tdiv o.size 2 = o.size / 2 := Int.tdiv_eq_ediv h0 (by norm_num)
    have hh : o.halfSize = o.size / 2 := halfSize_eq_ediv o h0
    refine ⟨?_, ?_, ?_⟩
    · simp only [Obstacle.drawsRow, decide_eq_false_iff_not, SCREEN_HEIGHT] at h1 h2 ⊢
      omega
    · rw [undrawnCount_eq o h1 h2, hh, ht]
      omega
    · intro he
      rw [Int.even_iff] at he
      rw [undrawnCount_eq o h1 h2, hh]
      omega

theorem render_wall_rows_witness :
    ((0 : ℤ) ≤ (⟨10, 20, 6⟩ : Obstacle).size ∧ Even (⟨10, 20, 6⟩ : Obstacle).size) ∧
      (((⟨10, 20, 6⟩ : Obstacle).undrawnCount : ℤ) = (⟨10, 20, 6⟩ : Obstacle).size) := by
  refine ⟨⟨by decide, Int.even_iff.mpr (by decide)⟩, ?_⟩
  exact ((render_wall_rows ⟨10, 20, 6⟩ 0 0).2 (by decide) (by decide) (by decide)).2.2
    (Int.even_iff.mpr (by decide))

theorem render_gap_height_cex :
    ((⟨10, 20, 3⟩ : Obstacle).undrawnCount : ℤ) ≠ (⟨10, 20, 3⟩ : Obstacle).size := by
  decide

/-- C10 (implicit): with matching rounded world x, Obstacle::hit is false on
    the whole inclusive band [gap_y - size/2, gap_y + size/2], which has one
    row more than the undrawn gap of Obstacle::render; in particular the row
    gap_y + size/2 is drawn as a wall glyph yet is not a collision. -/
theorem hit_gap_band (o : Obstacle) (p : Player) :
    (p.world_x = o.x → o.gap_y - o.halfSize ≤ p.screen_y →
      p.screen_y ≤ o.gap_y + o.halfSize → o.hit p = false) ∧
    (0 ≤ o.gap_y + o.halfSize → o.gap_y + o.halfSize < SCREEN_HEIGHT →
      o.drawsRow (o.gap_y + o.halfSize) = true) ∧
    (0 ≤ o.halfSize →
      (Finset.Icc (o.gap_y - o.halfSize) (o.gap_y + o.halfSize)).card =
        2 * o.halfSize.toNat + 1) ∧
    (0 ≤ o.size → 0 ≤ o.gap_y - o.halfSize → o.gap_y + o.halfSize ≤ SCREEN_HEIGHT →
      (Finset.Icc (o.gap_y - o.halfSize) (o.gap_y + o.halfSize)).card =
        o.undrawnCount + 1) := by
  refine ⟨?_, ?_, ?_, ?_⟩
  · intro hx h1 h2
    simp [Obstacle.hit, hx]
    omega
  · intro h1 h2
    simp only [Obstacle.drawsRow, decide_eq_true_eq, SCREEN_HEIGHT] at h1 h2 ⊢
    omega
  · intro hh
    rw [Int.card_Icc]
    omega
  · intro h0 h1 h2
    have hpos : 0 ≤ o.halfSize := by
      rw [halfSize_eq_ediv o h0]
      omega
    rw [Int.card_Icc, undrawnCount_eq o h1 h2]
    omega

theorem hit_gap_band_witness :
    Player.world_x ⟨10, 23, 15, 0⟩ = (⟨10, 20, 6⟩ : Obstacle).x ∧
      Obstacle.hit ⟨10, 20, 6⟩ ⟨10, 23, 15, 0⟩ = false ∧
      Obstacle.drawsRow ⟨10, 20, 6⟩
        ((⟨10, 20, 6⟩ : Obstacle).gap_y + (⟨10, 20, 6⟩ : Obstacle).halfSize) = true ∧
      (Finset.Icc ((⟨10, 20, 6⟩ : Obstacle).gap_y - (⟨10, 20, 6⟩ : Obstacle).halfSize)
          ((⟨10, 20, 6⟩ : Obstacle).gap_y + (⟨10, 20, 6⟩ : Obstacle).halfSize)).card =
        (⟨10, 20, 6⟩ : Obstacle).undrawnCount + 1 := by
  have hwx : Player.world_x ⟨10, 23, 15, 0⟩ = 10 := by
    norm_num [Player.world_x, rustRound]
  have hsy : Player.screen_y ⟨10, 23, 15, 0⟩ = 23 := by
    norm_num [Player.screen_y, rustRound]
  refine ⟨by rw [hwx], ?_, ?_, ?_⟩
  · exact (hit_gap_band ⟨10, 20, 6⟩ ⟨10, 23, 15, 0⟩).1 (by rw [hwx])
      (by rw [hsy]; decide) (by rw [hsy]; decide)
  · exact (hit_gap_band ⟨10, 20, 6⟩ ⟨10, 23, 15, 0⟩).2.1 (by decide) (by decide)
  · exact (hit_gap_band ⟨10, 20, 6⟩ ⟨10, 23, 15, 0⟩).2.2.2 (by decide) (by decide)
      (by decide)

end FlappyDragon
